import Mathlib

/-!
Verification development for the xopt module execution engine.

This file gives a shallow embedding of the core of the repository:

* `XOpt.callFuel` / `XOpt.loopFuel` — `ModuleInstance.call` from `src/xopt/instance.py`
  (the continue/delegate loop, trace recording, and its error paths);
* `XOpt.fromText` and `XOpt.primaryFromCaptures` — the two extraction strategies of
  `src/examples/modules/react/react.py` (`ReactLLMResponse.from_text` and the
  post-match normalisation in `parse_react_response`);
* `XOpt.getTunableValue` / `XOpt.getConfigurableValue` — the configuration resolver
  of `src/xopt/client.py`;
* `XOpt.startModule` — `start` from `src/xopt/utils.py`.

Python values that flow through the engine are modelled by the inductive `Value`;
raised Python exceptions are modelled by `Except.error`; the Python call stack is
modelled by an explicit fuel argument (a nested `ModuleInstance.call` consumes one
unit; `RecursionError` at fuel 0).
-/

namespace XOpt

/-- A Python value as seen by the engine: `None`, a string, an int, a dict with
string keys, or an opaque object (e.g. a `ReActContext`), identified by a tag. -/
inductive Value where
  | none
  | str (s : String)
  | num (n : Int)
  | dict (entries : List (String × Value))
  | obj (id : Nat)

/-- `StepResult` from `src/xopt/models.py`: action is `"response"`, `"step_call"`
or `"module_call"`; `module_name` / `module_input` are `Optional`. -/
structure StepResult where
  action : String
  content : Value
  module_name : Option String := Option.none
  module_input : Option (List (String × Value)) := Option.none

/-- A step function (`step_info['function']`): it may return a `StepResult` or
raise, which we model as `Except.error`. -/
def StepFun : Type := Value → Except String StepResult

/-- `Module` from `src/xopt/models.py` (only the fields the engine reads:
`name`, the `steps` table and `start_step`). -/
structure Module where
  name : String
  steps : List (String × StepFun)
  start_step : Option String

/-- `client()._modules`: the registry mapping names to modules. -/
def Registry : Type := List (String × Module)

/-- First-match association-list lookup (Python `dict[key]` / `key in dict`).
Python dicts have unique keys; first match is the match. -/
def lookupAssoc {α : Type} : List (String × α) → String → Option α
  | [], _ => Option.none
  | (k, v) :: rest, key => if k = key then Option.some v else lookupAssoc rest key

/-- A timestamped trace event (timestamps are not modelled). -/
structure TraceEvent where
  etype : String
  data : List (String × String)

/-- The per-run trace (`self.trace_data`): three ordered event logs.  `finalized`
records that `save_trace` ran (end timestamp added, persistence attempted; a
persistence failure is printed and swallowed, so it is not distinguished here). -/
structure Trace where
  module_name : String
  steps : List TraceEvent
  llm_calls : List TraceEvent
  module_calls : List TraceEvent
  finalized : Bool

/-- The trace as initialised in `ModuleInstance.__init__`. -/
def initTrace (mod : Module) : Trace :=
  { module_name := mod.name, steps := [], llm_calls := [], module_calls := [],
    finalized := false }

/-- `ModuleInstance.log_trace_event`: dispatch on the event type into one of the
three logs; other event types are dropped. -/
def logTraceEvent (t : Trace) (etype : String) (data : List (String × String)) : Trace :=
  let e : TraceEvent := { etype := etype, data := data }
  if etype = "step" then { t with steps := t.steps ++ [e] }
  else if etype = "llm_call" then { t with llm_calls := t.llm_calls ++ [e] }
  else if etype = "module_call" then { t with module_calls := t.module_calls ++ [e] }
  else t

/-- `ModuleInstance.save_trace`: add the end timestamp and persist (write failures
are swallowed), leaving the trace finalized. -/
def saveTrace (t : Trace) : Trace := { t with finalized := true }

/-- Python `str()` on a `Value` (dict rendering abridged: no claim depends on it). -/
def pyStr : Value → String
  | Value.none => "None"
  | Value.str s => s
  | Value.num n => toString n
  | Value.dict es => "\x7b" ++ String.intercalate ", " (es.map (fun e => e.1)) ++ "\x7d"
  | Value.obj i => "<object " ++ toString i ++ ">"

/-- Python `str()` of a `StepResult` (the pydantic rendering of the model). -/
def strOfResult (r : StepResult) : String :=
  "action='" ++ r.action ++ "' content='" ++ pyStr r.content ++ "'"

/-- `max_iterations = 5` in `ModuleInstance.call`. -/
def maxIterations : Nat := 5

/-- The `else` branch of `ModuleInstance.call` (lines 241-248): log the error,
save the trace, then `raise ValueError(error_msg)` — modelled as `Except.error`. -/
def noStartStep (mod : Module) (t : Trace) : Except String StepResult × Trace × Nat :=
  let msg := "No start step defined for module " ++ mod.name
  let t1 := logTraceEvent t "step" [("step_name", "error"), ("error", msg)]
  (Except.error msg, saveTrace t1, 0)

/-- Step-not-found branch (lines 152-163): error-content `"response"` result. -/
def stepNotFound (mod : Module) (t : Trace) (nm : String) (ic : Nat) :
    Except String StepResult × Trace × Nat :=
  let msg := "Step '" ++ nm ++ "' not found in module " ++ mod.name
  let t1 := logTraceEvent t "step" [("step_name", "error"), ("error", msg)]
  (Except.ok { action := "response", content := Value.str msg }, saveTrace t1, ic)

/-- Module-not-found branch (lines 225-236): error-content `"response"` result. -/
def moduleNotFound (t : Trace) (a : String) (ic : Nat) :
    Except String StepResult × Trace × Nat :=
  let msg := "No module found to handle action '" ++ a ++ "'"
  let t1 := logTraceEvent t "step" [("step_name", "error"), ("error", msg)]
  (Except.ok { action := "response", content := Value.str msg }, saveTrace t1, ic)

/-- The delegation payload `result.module_input.get('input', result.module_input)`
(line 168), for a non-`None` module input dict. -/
def delegationPayload (d : List (String × Value)) : Value :=
  match lookupAssoc d "input" with
  | Option.some v => v
  | Option.none => Value.dict d

/-- The continuation synthesized after a delegated sub-run when the delegation
input carried a `context` entry (lines 205-216): an internal `step_call` into
`react_step`, whose input carries the context and the sub-run result's string
form as `previous_action_result`. -/
def synthContinuation (ctx : Value) (module_result : StepResult) : StepResult :=
  { action := "step_call",
    content := Value.str "Continuing ReAct with observation",
    module_name := Option.some "react_step",
    module_input := Option.some
      [("context", ctx),
       ("previous_action_result", Value.str (strOfResult module_result))] }

/-- The guard `if self.module.start_step and self.module.start_step in
self.module.steps` (line 63): the start step name must be truthy (non-empty)
and present in the step table. -/
def startLookup (mod : Module) : Option (String × StepFun) :=
  match mod.start_step with
  | Option.some s =>
    if s = "" then Option.none
    else match lookupAssoc mod.steps s with
      | Option.some f => Option.some (s, f)
      | Option.none => Option.none
  | Option.none => Option.none

mutual

/-- `ModuleInstance.call` (`src/xopt/instance.py`, lines 52-248).  Returns the
outcome (`Except.error` = a raised exception), the instance's trace, and the
final value of `iteration_count`.  `fuel` models the Python call stack: each
nested `target_instance.call` consumes one unit, and fuel 0 is `RecursionError`.
The global `_current_trace_instance` swap (lines 73-92 and 122-141) is ambient
plumbing for LLM logging and does not affect control flow; it is not modelled. -/
def callFuel : Nat → Registry → Module → Value → Except String StepResult × Trace × Nat
  | 0, _reg, mod, _input =>
    (Except.error "RecursionError: maximum recursion depth exceeded", initTrace mod, 0)
  | fuel + 1, reg, mod, input =>
    let t0 := initTrace mod
    let t1 := logTraceEvent t0 "step"
      [("step_name", "module_call"), ("input", pyStr input), ("module", mod.name)]
    match startLookup mod with
    | Option.some sf =>
      let t2 := logTraceEvent t1 "step"
        [("step_name", sf.1), ("input", pyStr input), ("module", mod.name)]
      match sf.2 input with
      | Except.error e => (Except.error e, t2, 0)
      | Except.ok result =>
        let t3 := logTraceEvent t2 "step"
          [("step_name", sf.1 ++ "_result"), ("output", pyStr result.content),
           ("action", result.action)]
        loopFuel fuel reg mod t3 maxIterations result 0
    | Option.none => noStartStep mod t1
termination_by fuel _ _ _ => fuel * 7
decreasing_by all_goals (simp [maxIterations] <;> omega)

/-- The `while` loop of `ModuleInstance.call` (lines 101-240).  `remaining` is
`max_iterations - iteration_count` (the loop guard `iteration_count <
max_iterations`), `ic` is `iteration_count` itself (incremented at the top of
each body execution); on exit the trace is saved and the current result
returned (line 238-240). -/
def loopFuel : Nat → Registry → Module → Trace → Nat → StepResult → Nat →
    Except String StepResult × Trace × Nat
  | _fuel, _reg, _mod, t, 0, result, ic => (Except.ok result, saveTrace t, ic)
  | fuel, reg, mod, t, remaining + 1, result, ic =>
    if result.action = "step_call" then
      match result.module_name with
      | Option.some step_name =>
        match lookupAssoc mod.steps step_name with
        | Option.some f =>
          let step_input := match result.module_input with
            | Option.some d => Value.dict d
            | Option.none => Value.none
          let t1 := logTraceEvent t "step"
            [("step_name", step_name), ("input", pyStr step_input), ("module", mod.name)]
          match f step_input with
          | Except.error e => (Except.error e, t1, ic + 1)
          | Except.ok step_result =>
            let t2 := logTraceEvent t1 "step"
              [("step_name", step_name ++ "_result"),
               ("output", pyStr step_result.content), ("action", step_result.action)]
            loopFuel fuel reg mod t2 remaining step_result (ic + 1)
        | Option.none => stepNotFound mod t step_name (ic + 1)
      | Option.none => stepNotFound mod t "None" (ic + 1)
    else if result.action = "module_call" then
      match result.module_input with
      | Option.none =>
        (Except.error "AttributeError: 'NoneType' object has no attribute 'get'",
         t, ic + 1)
      | Option.some d =>
        let module_input := delegationPayload d
        match result.module_name with
        | Option.some a =>
          match (if a = "" then Option.none else lookupAssoc reg a) with
          | Option.some target =>
            let t1 := logTraceEvent t "module_call"
              [("action", a), ("target_module", a), ("input", pyStr module_input)]
            match (callFuel fuel reg target module_input).1 with
            | Except.error e => (Except.error e, t1, ic + 1)
            | Except.ok module_result =>
              let t2 := logTraceEvent t1 "module_call"
                [("action", a ++ "_result"), ("output", strOfResult module_result)]
              match lookupAssoc d "context" with
              | Option.some ctx =>
                loopFuel fuel reg mod t2 remaining
                  (synthContinuation ctx module_result) (ic + 1)
              | Option.none =>
                (Except.ok { action := "response",
                             content := Value.str (strOfResult module_result) },
                 saveTrace t2, ic + 1)
          | Option.none => moduleNotFound t a (ic + 1)
        | Option.none => moduleNotFound t "None" (ic + 1)
    else
      (Except.ok result, saveTrace t, ic)
termination_by fuel _ _ _ remaining _ _ => fuel * 7 + remaining + 1
decreasing_by all_goals (simp [maxIterations] <;> omega)

end

/-!
## Response extraction (`src/examples/modules/react/react.py`)

Text is modelled as `List Char`.  The fixed regular expressions of
`ReactLLMResponse.from_text` are implemented as explicit string functions,
following Python `re` semantics for these particular patterns: a pattern
`Label:\s*(.+?)(?=LOOKAHEAD|\Z)` under `re.DOTALL` anchors at the first
occurrence of the label, lets the greedy `\s*` eat the maximal whitespace run
(backtracking one character only when everything after the label is whitespace,
because the lazy group needs at least one character and end-of-string then
satisfies the lookahead), and the lazy group stops at the first later position
where the lookahead holds (end of string always qualifies).
`Char.isWhitespace` stands in for Python's `\s`/`str.strip` character class
(they agree on space, tab, CR and LF).
-/

/-- The apostrophe character (used by the quote-stripping rule). -/
def squote : Char := Char.ofNat 39

/-- Python `str.lower()` (ASCII). -/
def pyLower (l : List Char) : List Char := l.map Char.toLower

/-- Python `str.strip()`. -/
def trimList (l : List Char) : List Char :=
  ((l.dropWhile Char.isWhitespace).reverse.dropWhile Char.isWhitespace).reverse

/-- Index of the first occurrence of `pat` in the text, scanning from index `i`
(the anchor search of `re.search` for a pattern that starts with a literal). -/
def findFrom : List Char → List Char → Nat → Option Nat
  | pat, [], i => if pat = [] then Option.some i else Option.none
  | pat, c :: rest, i =>
    if pat.isPrefixOf (c :: rest) then Option.some i else findFrom pat rest (i + 1)

/-- Characters of the text until the first position where `stop` holds of the
remaining suffix (the lazy `(.+?)(?=...)` growth after its first character). -/
def takeUntilStop (stop : List Char → Bool) : List Char → List Char
  | [] => []
  | c :: r => if stop (c :: r) then [] else c :: takeUntilStop stop r

/-- Matching `\s*(.+?)(?=STOP|end)` against `tail` (the text after the label):
fails only when `tail` is empty; otherwise returns the capture and the text
after the match.  When `tail` is all whitespace the greedy `\s*` backtracks one
character, which becomes the capture, and the match ends at end of string. -/
def lazyCaptureRest (stop : List Char → Bool) (tail : List Char) :
    Option (List Char × List Char) :=
  match tail with
  | [] => Option.none
  | _ :: _ =>
    match tail.dropWhile Char.isWhitespace with
    | c :: r =>
      let tl := takeUntilStop stop r
      Option.some (c :: tl, r.drop tl.length)
    | [] =>
      match tail.reverse with
      | last :: _ => Option.some ([last], [])
      | [] => Option.none

/-- `re.search(label ++ r"\s*(.+?)(?=...|\Z)", text, re.DOTALL)`: anchor at the
first occurrence of the label, then capture lazily. -/
def searchLabeled (label : List Char) (stop : List Char → Bool) (text : List Char) :
    Option (List Char) :=
  match findFrom label text 0 with
  | Option.some i => (lazyCaptureRest stop (text.drop (i + label.length))).map (·.1)
  | Option.none => Option.none

/-- Lookahead of the thought pattern: `\n(?:Action|Final Answer)` or `\Z`. -/
def thoughtStop (l : List Char) : Bool :=
  l.isEmpty || "\nAction".data.isPrefixOf l || "\nFinal Answer".data.isPrefixOf l

/-- Lookahead of the action-input pattern: `\n(?:Observation|Final Answer)` or `\Z`. -/
def actionInputStop (l : List Char) : Bool :=
  l.isEmpty || "\nObservation".data.isPrefixOf l || "\nFinal Answer".data.isPrefixOf l

/-- Lookahead of the final-answer pattern: `\n\n`, `\n(?:Thought|Action)` or `$`
(which under `re.DOTALL` without `re.MULTILINE` holds at end of string and just
before a trailing newline). -/
def faStop (l : List Char) : Bool :=
  l.isEmpty || l == ['\n'] || "\n\n".data.isPrefixOf l ||
    "\nThought".data.isPrefixOf l || "\nAction".data.isPrefixOf l

/-- The capture of `re.search(r"Action:([^\n]*)", text)`: the rest of the line
after the first occurrence of `Action:` (greedy, possibly empty, never fails
once the label occurs). -/
def actionSegment (text : List Char) : Option (List Char) :=
  match findFrom "Action:".data text 0 with
  | Option.some i => Option.some ((text.drop (i + 7)).takeWhile (fun c => c ≠ '\n'))
  | Option.none => Option.none

/-- One step of `re.findall` for the final-answer pattern: the first match in
the text, returned with the remainder of the text after the match. -/
def faNext (text : List Char) : Option (List Char × List Char) :=
  match findFrom "Final Answer:".data text 0 with
  | Option.some i => lazyCaptureRest faStop (text.drop (i + 13))
  | Option.none => Option.none

/-- `re.findall` iteration: non-overlapping matches, each search resuming after
the previous match.  The fuel is the text length plus one, which suffices since
every match consumes at least the 13-character label. -/
def faAll : Nat → List Char → List (List Char)
  | 0, _ => []
  | n + 1, text =>
    match faNext text with
    | Option.some capRest => capRest.1 :: faAll n capRest.2
    | Option.none => []

/-- All captures of `re.findall(r"Final Answer:\s*(.+?)(?=\n\n|\n(?:Thought|Action)|$)",
text, re.DOTALL)`, in order. -/
def extractFinalAnswers (text : List Char) : List (List Char) :=
  faAll (text.length + 1) text

/-- The normalization blacklist `['none', 'null', 'n/a', '']` (compared against
the lowercased action text). -/
def noActionValue (l : List Char) : Bool :=
  ["none".data, "null".data, "n/a".data, ([] : List Char)].contains (pyLower l)

/-- Strip one layer of matching double or single quotes (react.py lines 56-59
and 170-173): Python `startswith`/`endswith`, so a single quote character is its
own opening and closing quote and strips to the empty string. -/
def stripQuotes (l : List Char) : List Char :=
  if l.head? = Option.some '"' ∧ l.getLast? = Option.some '"' then (l.drop 1).dropLast
  else if l.head? = Option.some squote ∧ l.getLast? = Option.some squote then (l.drop 1).dropLast
  else l

/-- The structured parse result of `ReactLLMResponse` (all fields `Optional`). -/
structure ReactLLMResponse where
  thought : Option (List Char)
  action : Option (List Char)
  action_input : Option (List Char)
  final_answer : Option (List Char)

/-- `ReactLLMResponse.from_text` (react.py lines 31-70): the fallback
extraction strategy with its fixed label anchors. -/
def fromText (text : List Char) : ReactLLMResponse :=
  let thought := (searchLabeled "Thought:".data thoughtStop text).map trimList
  let pair : Option (List Char) × Option (List Char) :=
    match actionSegment text with
    | Option.some seg =>
      let action_text := trimList seg
      if action_text ≠ [] ∧ ¬ noActionValue action_text ∧ (trimList action_text).length > 0 then
        let ai := (searchLabeled "Action Input:".data actionInputStop text).map
          (fun c => stripQuotes (trimList c))
        (Option.some action_text, ai)
      else (Option.none, Option.none)
    | Option.none => (Option.none, Option.none)
  let final_answer := (extractFinalAnswers text).getLast?.map trimList
  { thought := thought, action := pair.1, action_input := pair.2,
    final_answer := final_answer }

/-- The `result` dict built by `parse_react_response`: `thought` is always a
string (possibly empty), the other fields are `Optional`. -/
structure Extracted where
  thought : List Char
  action : Option (List Char)
  action_input : Option (List Char)
  final_answer : Option (List Char)

/-- Python truthiness of an optional string: present and non-empty. -/
def truthyStr : Option (List Char) → Bool
  | Option.some l => ¬ l.isEmpty
  | Option.none => false

/-- Python `x.strip() if x else None` on an optional capture. -/
def stripOrNone (x : Option (List Char)) : Option (List Char) :=
  match x with
  | Option.some l => if l = [] then Option.none else Option.some (trimList l)
  | Option.none => Option.none

/-- The normalisation that `parse_react_response` applies to a successful match
of the configured pattern (react.py lines 152-179), as a function of the four
named captures: strip each capture (`None`/empty give absent fields or an empty
thought), clear an action whose text is blank or blacklisted (together with its
input), strip one quote layer from the action input, and finally discard the
final answer when action, action input and final answer are all populated. -/
def primaryFromCaptures (th a ai fa : Option (List Char)) : Extracted :=
  let thought := match th with
    | Option.some l => if l = [] then [] else trimList l
    | Option.none => []
  let action0 := stripOrNone a
  let ai0 := stripOrNone ai
  let fa0 := stripOrNone fa
  let cleaned : Option (List Char) × Option (List Char) :=
    if truthyStr action0 then
      let action_text := action0.getD []
      if action_text = [] ∨ noActionValue action_text then (Option.none, Option.none)
      else (action0, ai0)
    else (action0, ai0)
  let ai2 := if truthyStr cleaned.2 then Option.some (stripQuotes (cleaned.2.getD []))
    else cleaned.2
  let fa2 := if truthyStr cleaned.1 ∧ truthyStr ai2 ∧ truthyStr fa0 then Option.none else fa0
  { thought := thought, action := cleaned.1, action_input := ai2, final_answer := fa2 }

/-- The observable outcome of running the caller-supplied regex
(`output_parser()`) against the response text: a match with four optional named
captures, no match, or the regex machinery raising (bad pattern, missing group). -/
inductive RegexAttempt where
  | matched (thought action action_input final_answer : Option (List Char))
  | noMatch
  | raised

/-- `parse_react_response` (react.py lines 141-196), with the configured regex
abstracted into its observable outcome: a successful match is normalised by
`primaryFromCaptures`; no match gives the all-empty result; an exception
silently falls back to `ReactLLMResponse.from_text` on the raw response. -/
def parse_react_response (attempt : RegexAttempt) (llm_response : List Char) : Extracted :=
  match attempt with
  | RegexAttempt.matched th a ai fa => primaryFromCaptures th a ai fa
  | RegexAttempt.noMatch =>
    { thought := [], action := Option.none, action_input := Option.none,
      final_answer := Option.none }
  | RegexAttempt.raised =>
    let p := fromText llm_response
    { thought := p.thought.getD [], action := p.action, action_input := p.action_input,
      final_answer := p.final_answer }

/-!
## Configuration resolver (`src/xopt/client.py`) and `start` (`src/xopt/utils.py`)
-/

/-- One module entry of the layered configuration (`self.config.values()` in
`XOptClient`): the optional `tunables`/`configurables` sub-maps.  Tunable values
are strings and configurable values are lists of strings, as in the
repository's configuration files. -/
structure ModuleConfigEntry where
  tunables : Option (List (String × String))
  configurables : Option (List (String × List String))

/-- `XOptClient.tunable` (client.py lines 30-39): the returned provider scans
every module entry of the configuration in order for one whose `tunables`
sub-map contains `name`; the first match wins, and with no match the value is
the sentinel `"Default <name>"`.  (The Python provider is a closure evaluated
at call time; the resolution logic it runs is this function.) -/
def getTunableValue (config : List ModuleConfigEntry) (name : String) : String :=
  match config with
  | [] => "Default " ++ name
  | mc :: rest =>
    match mc.tunables with
    | Option.some tl =>
      match lookupAssoc tl name with
      | Option.some v => v
      | Option.none => getTunableValue rest name
    | Option.none => getTunableValue rest name

/-- `XOptClient.configurable` (client.py lines 41-47): the same ordered scan
over the `configurables` sub-maps, with the empty list as fallback. -/
def getConfigurableValue (config : List ModuleConfigEntry) (name : String) : List String :=
  match config with
  | [] => []
  | mc :: rest =>
    match mc.configurables with
    | Option.some cl =>
      match lookupAssoc cl name with
      | Option.some v => v
      | Option.none => getConfigurableValue rest name
    | Option.none => getConfigurableValue rest name

/-- `module.split('@')[0]` from `start` (utils.py line 9): the text before the
first `@`, or the whole string when there is none. -/
def bareName (s : String) : String := String.mk (s.data.takeWhile (fun c => c ≠ '@'))

/-- `start` (utils.py lines 6-19): drop the version suffix, look the remaining
name up in `client()._modules`, and either build an instance of the module
found (returned here as the module itself) or raise `ValueError` (modelled as
`Except.error`). -/
def startModule (registry : Registry) (module : String) : Except String Module :=
  let module_name := bareName module
  match lookupAssoc registry module_name with
  | Option.some m => Except.ok m
  | Option.none => Except.error ("Module " ++ module_name ++ " not found")

/-!
## Concrete modules used to instantiate the theorems
-/

/-- A step that always continues internally into the step registered as `"s"`. -/
def cycleStep : StepFun := fun _v =>
  Except.ok { action := "step_call", content := Value.str "looping",
              module_name := Option.some "s", module_input := Option.some [] }

/-- A module whose single step always yields an internal continuation to itself,
so every run reaches the iteration bound with a non-terminal outcome. -/
def cycleModule : Module :=
  { name := "cyc", steps := [("s", cycleStep)], start_step := Option.some "s" }

/-- The outcome `cycleStep` always returns. -/
def cycleOutcome : StepResult :=
  { action := "step_call", content := Value.str "looping",
    module_name := Option.some "s", module_input := Option.some [] }

/-- A module with no designated start step. -/
def noStartModule : Module := { name := "m", steps := [], start_step := Option.none }

/-- A step function that raises. -/
def raisingStep : StepFun := fun _v => Except.error "boom"

/-- A module whose start step raises. -/
def raisingModule : Module :=
  { name := "rm", steps := [("s", raisingStep)], start_step := Option.some "s" }

/-- A step that terminates immediately with a response. -/
def respondStep : StepFun := fun _v =>
  Except.ok { action := "response", content := Value.str "done" }

/-- A module that responds immediately. -/
def respondModule : Module :=
  { name := "ok", steps := [("s", respondStep)], start_step := Option.some "s" }

/-- A step that delegates to the module registered under `"sd"` with no
continuation context, passing its own input through. -/
def selfDelegateStep : StepFun := fun v =>
  Except.ok { action := "module_call", content := Value.str "delegating",
              module_name := Option.some "sd",
              module_input := Option.some [("input", v)] }

/-- A module whose start step delegates to the module itself. -/
def selfDelegateModule : Module :=
  { name := "sd", steps := [("s", selfDelegateStep)], start_step := Option.some "s" }

/-- A registry resolving `"sd"` to the self-delegating module. -/
def selfDelegateRegistry : Registry := [("sd", selfDelegateModule)]

/-- A run never completes: at every stack budget it aborts with the stack
exhausted (the idealised run recurses past any finite depth). -/
def NeverCompletes (reg : Registry) (mod : Module) (input : Value) : Prop :=
  ∀ fuel, (callFuel fuel reg mod input).1 =
    Except.error "RecursionError: maximum recursion depth exceeded"

/-- A one-step calculator module answering `"4"`. -/
def calcStep : StepFun := fun _v =>
  Except.ok { action := "response", content := Value.str "4" }

/-- The module the delegation examples resolve `"calc"` to. -/
def calcModule : Module :=
  { name := "calc", steps := [("c", calcStep)], start_step := Option.some "c" }

/-- An (empty) module registered under a name that itself contains `@`. -/
def atNameModule : Module := { name := "a@b", steps := [], start_step := Option.none }

/-- A registry resolving `"calc"` to the calculator module. -/
def calcRegistry : Registry := [("calc", calcModule)]

/-- A delegation outcome targeting `"calc"` whose input carries a continuation
context (the shape `react_step` produces before a tool call). -/
def delegatingOutcome : StepResult :=
  { action := "module_call", content := Value.str "calling calc",
    module_name := Option.some "calc",
    module_input := Option.some [("input", Value.str "2+2"), ("context", Value.obj 1)] }

/-- The result of the delegated calculator sub-run. -/
def calcAnswer : StepResult :=
  { action := "response", content := Value.str "4",
    module_name := Option.none, module_input := Option.none }

/-- An outcome that continues internally into a step that does not exist. -/
def missingStepOutcome : StepResult :=
  { action := "step_call", content := Value.str "c",
    module_name := Option.some "missing", module_input := Option.none }

/-- An outcome that delegates to an action no registry entry handles. -/
def missingModuleOutcome : StepResult :=
  { action := "module_call", content := Value.str "c",
    module_name := Option.some "ghost", module_input := Option.some [] }

/-- A configuration entry with only a `react_prompt` tunable. -/
def entryA : ModuleConfigEntry :=
  { tunables := Option.some [("react_prompt", "You are ReAct")],
    configurables := Option.none }

/-- A configuration entry of a different module holding an `output_parser`
tunable and a `tool_list` configurable. -/
def entryB : ModuleConfigEntry :=
  { tunables := Option.some [("output_parser", "regex")],
    configurables := Option.some [("tool_list", ["xopt/calculator"])] }

/-!
## Theorems
-/

/-- The loop body runs at most `remaining` more times: the final
`iteration_count` is bounded by the entry count plus the remaining budget. -/
theorem loopFuel_iters_le (fuel : Nat) (reg : Registry) (mod : Module) :
    ∀ (remaining : Nat) (t : Trace) (r : StepResult) (ic : Nat),
    (loopFuel fuel reg mod t remaining r ic).2.2 ≤ ic + remaining := by
  intro remaining
  induction remaining with
  | zero => intro t r ic; rw [loopFuel]; simp
  | succ rem ih =>
    intro t r ic
    rw [loopFuel]
    dsimp only
    repeat' split
    all_goals (try (rw [(by omega : ic + (rem + 1) = (ic + 1) + rem)]; exact ih _ _ _))
    all_goals (simp [stepNotFound, moduleNotFound]; try omega)

/-- Every exit of the loop either propagates a raised exception or has passed
through `save_trace`. -/
theorem loopFuel_error_or_finalized (fuel : Nat) (reg : Registry) (mod : Module) :
    ∀ (remaining : Nat) (t : Trace) (r : StepResult) (ic : Nat),
    (∃ e, (loopFuel fuel reg mod t remaining r ic).1 = Except.error e) ∨
    (loopFuel fuel reg mod t remaining r ic).2.1.finalized = true := by
  intro remaining
  induction remaining with
  | zero => intro t r ic; rw [loopFuel]; right; simp [saveTrace]
  | succ rem ih =>
    intro t r ic
    rw [loopFuel]
    dsimp only
    repeat' split
    all_goals first
      | exact ih _ _ _
      | (left; exact ⟨_, rfl⟩)
      | (right; simp [stepNotFound, moduleNotFound, saveTrace])

/-- C1 (counterexample): a module whose step always continues internally runs
the loop to its bound of 5 iterations, and the run then returns the raw
non-terminal outcome — action still `"step_call"`, content the step's ordinary
content `"looping"` — not a terminal Response with error content, refuting the
claim that exceeding the bound yields an error-content Response. -/
theorem claim_C1_counterexample :
    (callFuel 1 [] cycleModule (Value.str "go")).1 = Except.ok cycleOutcome ∧
    cycleOutcome.action = "step_call" ∧ cycleOutcome.content = Value.str "looping" ∧
    (callFuel 1 [] cycleModule (Value.str "go")).2.2 = 5 := by
  refine ⟨?_, rfl, rfl, ?_⟩ <;>
    (rw [callFuel];
     simp [cycleModule, cycleStep, cycleOutcome, startLookup, lookupAssoc, loopFuel,
       maxIterations])

/-- C1 (amended): when the loop's iteration budget is exhausted it stops — no
unbounded loop and no exception — but the run returns the latest Step Outcome
unchanged (with the trace finalized), not an error-content Response: the loop
exit returns the current result as-is, and a run of the always-continuing
module ends after exactly 5 iterations with the outcome still `"step_call"`. -/
theorem claim_C1 :
    (∀ fuel reg mod t r ic, loopFuel fuel reg mod t 0 r ic = (Except.ok r, saveTrace t, ic)) ∧
    (∀ (fuel : Nat) (reg : Registry) (input : Value),
      (callFuel (fuel + 1) reg cycleModule input).1 = Except.ok cycleOutcome ∧
      (callFuel (fuel + 1) reg cycleModule input).2.2 = 5 ∧
      (callFuel (fuel + 1) reg cycleModule input).2.1.finalized = true) ∧
    cycleOutcome.action = "step_call" := by
  refine ⟨fun fuel reg mod t r ic => by rw [loopFuel], fun fuel reg input => ?_, rfl⟩
  rw [callFuel]
  simp [cycleModule, cycleStep, cycleOutcome, startLookup, lookupAssoc, loopFuel,
    maxIterations, saveTrace]

/-- C2 (counterexample): running a module with no designated start step makes
`ModuleInstance.call` raise `ValueError` (modelled as `Except.error`), refuting
the claim that it returns an error-content Response and never raises. -/
theorem claim_C2_counterexample : (callFuel 1 [] noStartModule (Value.str "q")).1 =
    Except.error "No start step defined for module m" := by
  rw [callFuel]
  simp [noStartModule, startLookup, noStartStep]

/-- C2 (amended): for a module whose start step is missing, empty, or not
registered in its step table, the run logs the error, finalizes the trace, and
raises `ValueError("No start step defined for module <name>")` — an exception
carrying a human-readable message, not a returned Response. -/
theorem claim_C2 (fuel : Nat) (reg : Registry) (mod : Module) (input : Value)
    (h : startLookup mod = Option.none) :
    ∃ tr, callFuel (fuel + 1) reg mod input =
        (Except.error ("No start step defined for module " ++ mod.name), tr, 0) ∧
      tr.finalized = true := by
  rw [callFuel]
  dsimp only
  rw [h]
  exact ⟨_, rfl, by simp [noStartStep, saveTrace]⟩

/-- C2 (witness): the amended statement instantiated at the start-step-less
module. -/
theorem claim_C2_witness :
    ∃ tr, callFuel 1 [] noStartModule (Value.str "z") =
        (Except.error ("No start step defined for module " ++ noStartModule.name), tr, 0) ∧
      tr.finalized = true :=
  claim_C2 0 [] noStartModule (Value.str "z") (by simp [startLookup, noStartModule])

/-- C3 (counterexample): a run whose start step raises propagates the exception
and never reaches `save_trace` — the trace of the run is left unfinalized,
refuting the claim that a finalized trace is produced on every termination
path including a step function raising. -/
theorem claim_C3_counterexample :
    (callFuel 1 [] raisingModule (Value.str "x")).1 = Except.error "boom" ∧
    (callFuel 1 [] raisingModule (Value.str "x")).2.1.finalized = false := by
  constructor
  · rw [callFuel]; simp [raisingModule, raisingStep, startLookup, lookupAssoc]
  · rw [callFuel]
    simp [raisingModule, raisingStep, startLookup, lookupAssoc, logTraceEvent, initTrace]

/-- C3 (amended): every run that completes by returning a `StepResult` (rather
than propagating a raised exception) has finalized its trace; but on the path
where a step function raises the exception escapes before `save_trace`, so no
finalized trace is guaranteed there. -/
theorem claim_C3 (fuel : Nat) (reg : Registry) (mod : Module) (input : Value)
    (x : StepResult) (h : (callFuel fuel reg mod input).1 = Except.ok x) :
    (callFuel fuel reg mod input).2.1.finalized = true := by
  cases fuel with
  | zero => rw [callFuel] at h; simp at h
  | succ f =>
    rw [callFuel] at h ⊢
    dsimp only at h ⊢
    revert h
    repeat' split
    all_goals intro h
    · simp at h
    · rcases loopFuel_error_or_finalized f reg mod maxIterations _ _ 0 with ⟨e, he⟩ | hf
      · rw [he] at h; simp at h
      · exact hf
    · simp [noStartStep] at h

/-- C3 (witness): the amended statement instantiated at a run that terminates
normally with a response. -/
theorem claim_C3_witness : (callFuel 1 [] respondModule (Value.str "in")).2.1.finalized = true :=
  claim_C3 1 [] respondModule (Value.str "in")
    { action := "response", content := Value.str "done",
      module_name := Option.none, module_input := Option.none }
    (by rw [callFuel]
        simp [respondModule, respondStep, startLookup, lookupAssoc, loopFuel, maxIterations])

/-- C4 (counterexample): a module with a valid start step whose step delegates
to the module itself with no continuation context never completes — at every
finite stack budget the run aborts with the stack exhausted instead of
terminating within the iteration bound, refuting the claim that no input causes
unbounded recursion. -/
theorem claim_C4_counterexample :
    NeverCompletes selfDelegateRegistry selfDelegateModule (Value.str "x") := by
  intro fuel
  induction fuel with
  | zero => rw [callFuel]
  | succ f ih =>
    rw [callFuel]
    simp only [selfDelegateRegistry, selfDelegateModule, selfDelegateStep] at ih
    simp [selfDelegateModule, selfDelegateStep, selfDelegateRegistry, startLookup,
      lookupAssoc, loopFuel, delegationPayload, maxIterations, ih]

/-- C4 (amended): each engine loop executes at most 5 iterations (the final
`iteration_count` of any run is at most `max_iterations = 5`); however every
external delegation starts a fresh sub-run with its own bound, so nesting depth
is unbounded and termination of the whole run is not guaranteed. -/
theorem claim_C4 (fuel : Nat) (reg : Registry) (mod : Module) (input : Value) :
    (callFuel fuel reg mod input).2.2 ≤ maxIterations := by
  cases fuel with
  | zero => rw [callFuel]; simp [maxIterations]
  | succ f =>
    rw [callFuel]
    dsimp only
    repeat' split
    all_goals first
      | (simpa using loopFuel_iters_le f reg mod maxIterations _ _ 0)
      | simp [noStartStep, maxIterations]

/-- C5 (confirmed): when a delegation whose input carries a `context` entry
resolves and the sub-run returns a result, the engine does not return to the
caller: it continues the loop on a synthesized internal continuation into
`react_step`, whose input passes the context along and whose
`previous_action_result` observation is exactly the string form of the
delegated result. -/
theorem claim_C5 (fuel : Nat) (reg : Registry) (mod : Module) (t : Trace) (rem : Nat)
    (r : StepResult) (ic : Nat) (d : List (String × Value)) (a : String)
    (target : Module) (ctx : Value) (subr : StepResult)
    (h1 : r.action = "module_call") (h2 : r.module_input = Option.some d)
    (h3 : r.module_name = Option.some a) (h4 : a ≠ "")
    (h5 : lookupAssoc reg a = Option.some target)
    (h6 : lookupAssoc d "context" = Option.some ctx)
    (h7 : (callFuel fuel reg target (delegationPayload d)).1 = Except.ok subr) :
    (∃ t2, loopFuel fuel reg mod t (rem + 1) r ic =
        loopFuel fuel reg mod t2 rem (synthContinuation ctx subr) (ic + 1)) ∧
    (synthContinuation ctx subr).action = "step_call" ∧
    (synthContinuation ctx subr).module_name = Option.some "react_step" ∧
    lookupAssoc ((synthContinuation ctx subr).module_input.getD []) "previous_action_result" =
      Option.some (Value.str (strOfResult subr)) := by
  refine ⟨⟨logTraceEvent (logTraceEvent t "module_call"
      [("action", a), ("target_module", a), ("input", pyStr (delegationPayload d))])
      "module_call" [("action", a ++ "_result"), ("output", strOfResult subr)], ?_⟩,
    rfl, rfl, by simp [synthContinuation, lookupAssoc]⟩
  rw [loopFuel]
  simp [h1, h2, h3, h4, h5, h6, h7]

/-- C5 (witness): the delegation round trip instantiated with a concrete
calculator sub-run answering `"4"`. -/
theorem claim_C5_witness :
    (∃ t2, loopFuel 1 calcRegistry respondModule (initTrace respondModule) 3
        delegatingOutcome 0 =
      loopFuel 1 calcRegistry respondModule t2 2
        (synthContinuation (Value.obj 1) calcAnswer) 1) ∧
    (synthContinuation (Value.obj 1) calcAnswer).action = "step_call" ∧
    (synthContinuation (Value.obj 1) calcAnswer).module_name = Option.some "react_step" ∧
    lookupAssoc ((synthContinuation (Value.obj 1) calcAnswer).module_input.getD [])
      "previous_action_result" = Option.some (Value.str (strOfResult calcAnswer)) :=
  claim_C5 1 calcRegistry respondModule (initTrace respondModule) 2 delegatingOutcome 0
    [("input", Value.str "2+2"), ("context", Value.obj 1)] "calc" calcModule
    (Value.obj 1) calcAnswer rfl rfl rfl (by decide) rfl rfl
    (by rw [callFuel]
        simp [calcRegistry, calcModule, calcStep, startLookup, lookupAssoc,
          delegationPayload, loopFuel, maxIterations, calcAnswer])

/-- C8 (confirmed): an internal continuation naming a step absent from the
module's table, and an external delegation naming an action no registry entry
handles, each make the loop return immediately with an `Except.ok` (no raised
fault) terminal `"response"` whose content names the missing target, after
finalizing the trace. -/
theorem claim_C8 :
    (∀ (fuel : Nat) (reg : Registry) (mod : Module) (t : Trace) (rem : Nat)
      (r : StepResult) (ic : Nat) (s : String),
      r.action = "step_call" → r.module_name = Option.some s →
      lookupAssoc mod.steps s = Option.none →
      loopFuel fuel reg mod t (rem + 1) r ic = stepNotFound mod t s (ic + 1) ∧
      (stepNotFound mod t s (ic + 1)).1 = Except.ok
        { action := "response",
          content := Value.str ("Step '" ++ s ++ "' not found in module " ++ mod.name) } ∧
      (stepNotFound mod t s (ic + 1)).2.1.finalized = true) ∧
    (∀ (fuel : Nat) (reg : Registry) (mod : Module) (t : Trace) (rem : Nat)
      (r : StepResult) (ic : Nat) (d : List (String × Value)) (a : String),
      r.action = "module_call" → r.module_input = Option.some d →
      r.module_name = Option.some a →
      (if a = "" then Option.none else lookupAssoc reg a) = Option.none →
      loopFuel fuel reg mod t (rem + 1) r ic = moduleNotFound t a (ic + 1) ∧
      (moduleNotFound t a (ic + 1)).1 = Except.ok
        { action := "response",
          content := Value.str ("No module found to handle action '" ++ a ++ "'") } ∧
      (moduleNotFound t a (ic + 1)).2.1.finalized = true) := by
  constructor
  · intro fuel reg mod t rem r ic s h1 h2 h3
    refine ⟨?_, rfl, by simp [stepNotFound, saveTrace]⟩
    rw [loopFuel]
    simp [h1, h2, h3]
  · intro fuel reg mod t rem r ic d a h1 h2 h3 h4
    refine ⟨?_, rfl, by simp [moduleNotFound, saveTrace]⟩
    rw [loopFuel]
    simp [h1, h2, h3, h4]

/-- C8 (witness): both unresolved-target branches instantiated at a concrete
module and registry. -/
theorem claim_C8_witness :
    (loopFuel 0 [] respondModule (initTrace respondModule) 1 missingStepOutcome 0 =
        stepNotFound respondModule (initTrace respondModule) "missing" 1 ∧
      (stepNotFound respondModule (initTrace respondModule) "missing" 1).1 = Except.ok
        { action := "response",
          content := Value.str ("Step '" ++ "missing" ++ "' not found in module " ++
            respondModule.name) } ∧
      (stepNotFound respondModule (initTrace respondModule) "missing" 1).2.1.finalized = true) ∧
    (loopFuel 0 [] respondModule (initTrace respondModule) 1 missingModuleOutcome 0 =
        moduleNotFound (initTrace respondModule) "ghost" 1 ∧
      (moduleNotFound (initTrace respondModule) "ghost" 1).1 = Except.ok
        { action := "response",
          content := Value.str ("No module found to handle action '" ++ "ghost" ++ "'") } ∧
      (moduleNotFound (initTrace respondModule) "ghost" 1).2.1.finalized = true) :=
  ⟨claim_C8.1 0 [] respondModule (initTrace respondModule) 0 missingStepOutcome 0 "missing"
      rfl rfl (by simp [respondModule, lookupAssoc]),
   claim_C8.2 0 [] respondModule (initTrace respondModule) 0 missingModuleOutcome 0 [] "ghost"
      rfl rfl rfl (by simp [lookupAssoc])⟩

/-- C6 (counterexample): on text carrying a populated `Action`/`Action Input`
pair and a `Final Answer`, the fallback strategy returns all three fields
populated — the final answer is not discarded — refuting the claim that the
tie-break applies under both extraction strategies. -/
theorem claim_C6_counterexample :
    (parse_react_response RegexAttempt.raised
      "Thought: T\nAction: calc\nAction Input: 1+1\nFinal Answer: 42".data).action =
        Option.some "calc".data ∧
    (parse_react_response RegexAttempt.raised
      "Thought: T\nAction: calc\nAction Input: 1+1\nFinal Answer: 42".data).action_input =
        Option.some "1+1".data ∧
    (parse_react_response RegexAttempt.raised
      "Thought: T\nAction: calc\nAction Input: 1+1\nFinal Answer: 42".data).final_answer =
        Option.some "42".data := by
  refine ⟨?_, ?_, ?_⟩ <;> rfl

/-- C6 (amended): the action-over-final-answer tie-break holds under the
primary pattern-based strategy only: whenever its normalisation yields a
populated action and action input, the final answer field is never populated
(it is discarded when it was populated, and can otherwise only be empty or
absent).  The fallback strategy extracts the fields independently and applies
no tie-break. -/
theorem claim_C6 (th a ai fa : Option (List Char))
    (h1 : truthyStr (primaryFromCaptures th a ai fa).action = true)
    (h2 : truthyStr (primaryFromCaptures th a ai fa).action_input = true) :
    truthyStr (primaryFromCaptures th a ai fa).final_answer = false := by
  dsimp only [primaryFromCaptures] at h1 h2 ⊢
  split at h1 <;> split <;> simp_all
  all_goals (split <;> first | rfl | simp_all)

/-- C6 (witness): the amended statement instantiated at captures where all
three fields are populated. -/
theorem claim_C6_witness :
    truthyStr (primaryFromCaptures (Option.some "T".data) (Option.some "calc".data)
      (Option.some "x".data) (Option.some "F".data)).final_answer = false :=
  claim_C6 (Option.some "T".data) (Option.some "calc".data) (Option.some "x".data)
    (Option.some "F".data) (by rfl) (by rfl)

/-- C7 (counterexample): under the primary strategy a whitespace-only action
capture does not normalize to an absent action: the extraction result carries
the empty-string action (and the action input is retained, unlike the
`none`/`null`/`n/a` path, which clears both), refuting the claim that a
whitespace-only value normalizes to no action under both strategies. -/
theorem claim_C7_counterexample :
    (primaryFromCaptures (Option.some "T".data) (Option.some "   ".data)
      (Option.some "X".data) Option.none).action = Option.some [] ∧
    (primaryFromCaptures (Option.some "T".data) (Option.some "   ".data)
      (Option.some "X".data) Option.none).action ≠ Option.none ∧
    (primaryFromCaptures (Option.some "T".data) (Option.some "   ".data)
      (Option.some "X".data) Option.none).action_input = Option.some "X".data := by
  refine ⟨rfl, by decide, rfl⟩

/-- C7 (amended): a captured action value that trims to `"none"`, `"null"` or
`"n/a"` (case-insensitively) normalizes to an absent action (with the action
input cleared) under the primary strategy, and absent or blacklisted-after-trim
(including empty and whitespace-only) segments yield no action and no action
input under the fallback strategy; an empty or missing capture is absent under
the primary strategy too — but a whitespace-only primary capture yields the
empty-string action of the counterexample rather than an absent one. -/
theorem claim_C7 :
    (∀ (th a ai fa : Option (List Char)) (l : List Char),
      a = Option.some l → l ≠ [] → trimList l ≠ [] → noActionValue (trimList l) = true →
      (primaryFromCaptures th a ai fa).action = Option.none ∧
      (primaryFromCaptures th a ai fa).action_input = Option.none) ∧
    (∀ (th ai fa : Option (List Char)),
      (primaryFromCaptures th Option.none ai fa).action = Option.none ∧
      (primaryFromCaptures th (Option.some []) ai fa).action = Option.none) ∧
    (∀ (text seg : List Char),
      actionSegment text = Option.some seg →
      (trimList seg = [] ∨ noActionValue (trimList seg) = true) →
      (fromText text).action = Option.none ∧ (fromText text).action_input = Option.none) := by
  refine ⟨?_, ?_, ?_⟩
  · intro th a ai fa l h hne htrim hno
    subst h
    dsimp only [primaryFromCaptures, stripOrNone]
    simp [hne, htrim, hno, truthyStr]
  · intro th ai fa
    constructor <;> simp [primaryFromCaptures, stripOrNone, truthyStr]
  · intro text seg h hcond
    dsimp only [fromText]
    rw [h]
    rcases hcond with hc | hc
    · simp [hc]
    · simp [hc]

/-- C7 (witness): the amended statement instantiated at a `" NONE "` capture
under the primary strategy and at `Action: n/a` under the fallback. -/
theorem claim_C7_witness :
    ((primaryFromCaptures (Option.some "T".data) (Option.some " NONE ".data)
        (Option.some "X".data) Option.none).action = Option.none ∧
      (primaryFromCaptures (Option.some "T".data) (Option.some " NONE ".data)
        (Option.some "X".data) Option.none).action_input = Option.none) ∧
    ((fromText "Action: n/a\nrest".data).action = Option.none ∧
      (fromText "Action: n/a\nrest".data).action_input = Option.none) :=
  ⟨claim_C7.1 (Option.some "T".data) (Option.some " NONE ".data) (Option.some "X".data)
      Option.none " NONE ".data rfl (by decide) (by decide) (by decide),
   claim_C7.2.2 "Action: n/a\nrest".data " n/a".data (by rfl) (Or.inr (by decide))⟩

/-- C9 (confirmed): the tunable and configurable resolvers scan all module
entries of the layered configuration in order and return the value of the
first entry whose `tunables` (respectively `configurables`) sub-map contains
the name; when no entry contains it, a tunable resolves to `"Default <name>"`
and a configurable resolves to the empty list. -/
theorem claim_C9 :
    (∀ (config : List ModuleConfigEntry) (name : String),
      (∀ mc ∈ config, ∀ tl, mc.tunables = Option.some tl →
        lookupAssoc tl name = Option.none) →
      getTunableValue config name = "Default " ++ name) ∧
    (∀ (pre post : List ModuleConfigEntry) (mc : ModuleConfigEntry) (name : String)
      (tl : List (String × String)) (v : String),
      (∀ mc' ∈ pre, ∀ tl', mc'.tunables = Option.some tl' →
        lookupAssoc tl' name = Option.none) →
      mc.tunables = Option.some tl → lookupAssoc tl name = Option.some v →
      getTunableValue (pre ++ mc :: post) name = v) ∧
    (∀ (config : List ModuleConfigEntry) (name : String),
      (∀ mc ∈ config, ∀ cl, mc.configurables = Option.some cl →
        lookupAssoc cl name = Option.none) →
      getConfigurableValue config name = []) ∧
    (∀ (pre post : List ModuleConfigEntry) (mc : ModuleConfigEntry) (name : String)
      (cl : List (String × List String)) (v : List String),
      (∀ mc' ∈ pre, ∀ cl', mc'.configurables = Option.some cl' →
        lookupAssoc cl' name = Option.none) →
      mc.configurables = Option.some cl → lookupAssoc cl name = Option.some v →
      getConfigurableValue (pre ++ mc :: post) name = v) := by
  refine ⟨?_, ?_, ?_, ?_⟩
  · intro config name
    induction config with
    | nil => intro _; rfl
    | cons mc rest ih =>
      intro h
      have hrest := fun mc' hm tl' ht => h mc' (List.mem_cons_of_mem _ hm) tl' ht
      cases hmc : mc.tunables with
      | none => simp [getTunableValue, hmc]; exact ih hrest
      | some tl =>
        simp [getTunableValue, hmc, h mc (List.mem_cons_self _ _) tl hmc]
        exact ih hrest
  · intro pre post mc name tl v
    induction pre with
    | nil => intro _ hmc hv; simp [getTunableValue, hmc, hv]
    | cons e es ih =>
      intro h hmc hv
      have hes := fun mc' hm tl' ht => h mc' (List.mem_cons_of_mem _ hm) tl' ht
      cases he : e.tunables with
      | none => simp [getTunableValue, he]; exact ih hes hmc hv
      | some tl' =>
        simp [getTunableValue, he, h e (List.mem_cons_self _ _) tl' he]
        exact ih hes hmc hv
  · intro config name
    induction config with
    | nil => intro _; rfl
    | cons mc rest ih =>
      intro h
      have hrest := fun mc' hm cl' ht => h mc' (List.mem_cons_of_mem _ hm) cl' ht
      cases hmc : mc.configurables with
      | none => simp [getConfigurableValue, hmc]; exact ih hrest
      | some cl =>
        simp [getConfigurableValue, hmc, h mc (List.mem_cons_self _ _) cl hmc]
        exact ih hrest
  · intro pre post mc name cl v
    induction pre with
    | nil => intro _ hmc hv; simp [getConfigurableValue, hmc, hv]
    | cons e es ih =>
      intro h hmc hv
      have hes := fun mc' hm cl' ht => h mc' (List.mem_cons_of_mem _ hm) cl' ht
      cases he : e.configurables with
      | none => simp [getConfigurableValue, he]; exact ih hes hmc hv
      | some cl' =>
        simp [getConfigurableValue, he, h e (List.mem_cons_self _ _) cl' he]
        exact ih hes hmc hv

/-- C9 (witness): cross-entry resolution and defaults at a concrete two-entry
configuration — the second entry's values are found even though the first
entry belongs to a different module. -/
theorem claim_C9_witness :
    getTunableValue [entryA, entryB] "output_parser" = "regex" ∧
    getConfigurableValue [entryA, entryB] "tool_list" = ["xopt/calculator"] ∧
    getTunableValue [entryA] "missing" = "Default " ++ "missing" ∧
    getConfigurableValue [entryA] "missing" = [] :=
  ⟨claim_C9.2.1 [entryA] [] entryB "output_parser" [("output_parser", "regex")] "regex"
      (by
        intro mc' hm tl' ht
        simp only [List.mem_singleton] at hm
        subst hm
        simp only [entryA] at ht
        injection ht with h2
        subst h2
        rfl)
      rfl rfl,
   claim_C9.2.2.2 [entryA] [] entryB "tool_list" [("tool_list", ["xopt/calculator"])]
      ["xopt/calculator"]
      (by
        intro mc' hm cl' ht
        simp only [List.mem_singleton] at hm
        subst hm
        simp only [entryA] at ht
        cases ht)
      rfl rfl,
   claim_C9.1 [entryA] "missing"
      (by
        intro mc' hm tl' ht
        simp only [List.mem_singleton] at hm
        subst hm
        simp only [entryA] at ht
        injection ht with h2
        subst h2
        rfl),
   claim_C9.2.2.1 [entryA] "missing"
      (by
        intro mc' hm cl' ht
        simp only [List.mem_singleton] at hm
        subst hm
        simp only [entryA] at ht
        cases ht)⟩

/-- Splitting before a character known absent from the first part: `takeWhile`
keeps exactly the first part. -/
theorem takeWhile_append_stop (p : Char → Bool) (l1 l2 : List Char) (x : Char)
    (h1 : ∀ c ∈ l1, p c = true) (h2 : p x = false) :
    (l1 ++ x :: l2).takeWhile p = l1 := by
  induction l1 with
  | nil => simp [List.takeWhile_cons, h2]
  | cons c cs ih =>
    simp only [List.cons_append, List.takeWhile_cons, h1 c (by simp)]
    simp [ih (fun c' hc => h1 c' (by simp [hc]))]

/-- For a bare name containing no `@`, appending a version suffix and splitting
at the first `@` recovers the bare name. -/
theorem bareName_append (m v : String) (h : ∀ c ∈ m.data, c ≠ '@') :
    bareName (m ++ "@" ++ v) = m := by
  have hd : (m ++ "@" ++ v).data = m.data ++ '@' :: v.data := by
    simp [String.data_append]
  unfold bareName
  rw [hd, takeWhile_append_stop _ m.data v.data '@' (fun c hc => by simp [h c hc]) (by simp)]

/-- C10 (counterexample): for a registered module whose bare name itself
contains `@`, `start` truncates at the first `@` and looks up the wrong name:
`start("a@b@1.0")` raises not-found even though `"a@b"` is registered,
refuting the claim for every bare name and version string. -/
theorem claim_C10_counterexample :
    startModule [("a@b", atNameModule)] "a@b@1.0" = Except.error "Module a not found" ∧
    lookupAssoc [("a@b", atNameModule)] "a@b" = Option.some atNameModule :=
  ⟨rfl, rfl⟩

/-- C10 (amended): `start` splits at the first `@` and looks up the prefix; for
every module name containing no `@` and every version string, `start(m@v)`
starts the module registered under `m` and raises a not-found `ValueError`
exactly when `m` is absent from the registry, regardless of the version. -/
theorem claim_C10 (reg : Registry) (m v : String) (h : ∀ c ∈ m.data, c ≠ '@') :
    bareName (m ++ "@" ++ v) = m ∧
    (∀ M, lookupAssoc reg m = Option.some M →
      startModule reg (m ++ "@" ++ v) = Except.ok M) ∧
    (lookupAssoc reg m = Option.none →
      startModule reg (m ++ "@" ++ v) = Except.error ("Module " ++ m ++ " not found")) := by
  have hb := bareName_append m v h
  refine ⟨hb, ?_, ?_⟩
  · intro M hM
    unfold startModule
    dsimp only
    rw [hb, hM]
  · intro hN
    unfold startModule
    dsimp only
    rw [hb, hN]

/-- C10 (witness): the amended statement instantiated at `"calc"` with a
version suffix, against a registry containing it and one not containing it. -/
theorem claim_C10_witness :
    bareName ("calc" ++ "@" ++ "0.1.0") = "calc" ∧
    startModule calcRegistry ("calc" ++ "@" ++ "0.1.0") = Except.ok calcModule ∧
    startModule [] ("calc" ++ "@" ++ "0.1.0") =
      Except.error ("Module " ++ "calc" ++ " not found") :=
  ⟨(claim_C10 calcRegistry "calc" "0.1.0" (by decide)).1,
   (claim_C10 calcRegistry "calc" "0.1.0" (by decide)).2.1 calcModule rfl,
   (claim_C10 [] "calc" "0.1.0" (by decide)).2.2 rfl⟩

end XOpt
